import Mathlib

/-!
Formal model of the edutask backend (DueNow Assignment Manager).

This file is a shallow embedding of the pure helper functions in
src/utils/helpers.ts and of the Express route handlers in
src/routes/assignments.ts, src/routes/submissions.ts (shipped here as part of
files.ts) and src/routes/grading.ts, together with theorems about them.

Modelling conventions:
- JS numbers are modelled as exact rationals (or integers where the code only
  ever produces integers); `Math.round` / `Math.ceil` are the exact
  half-up rounding and ceiling on rationals.
- A JS `Date` is modelled as a local calendar day index plus the milliseconds
  elapsed within that day; `setHours(0,0,0,0)` / `setHours(23,59,59,999)`
  become `startOfDay` / `endOfDay`.
- Optional / possibly-missing JSON fields are `Option` values; the JS
  truthiness test on an optional string (`if (x)`) is `truthyStr`.
- Firestore collections are association lists keyed by the document id;
  a handler is a pure function from its store lookups and request data to
  either an error response (HTTP status code plus message) or the document
  it writes.  A wrapper function threads the store so that "no write happened
  on the error path" is visible in the model exactly where the code returns
  before any `set`/`update` call.
-/

namespace Edutask

/-- A JS `Date` in local time: calendar day index and milliseconds within the
day. -/
structure JsDate where
  day : ℤ
  ms : ℤ
deriving DecidableEq, Repr

/-- Milliseconds per day, the constant `1000 * 60 * 60 * 24` from helpers.ts. -/
def msPerDay : ℤ := 86400000

/-- `Date.prototype.getTime` for the model. -/
def JsDate.getTime (d : JsDate) : ℤ := d.day * msPerDay + d.ms

/-- `d.setHours(0, 0, 0, 0)`: zero the time of day. -/
def JsDate.startOfDay (d : JsDate) : JsDate := ⟨d.day, 0⟩

/-- `d.setHours(23, 59, 59, 999)`: move to the last millisecond of the day. -/
def JsDate.endOfDay (d : JsDate) : JsDate := ⟨d.day, msPerDay - 1⟩

/-- `Math.round` on an exact rational: round half toward positive infinity. -/
def jsRound (q : ℚ) : ℤ := ⌊q + 1 / 2⌋

/-- `Math.ceil` on an exact rational, written through the floor so that
concrete instances evaluate; `jsCeil_eq_ceil` shows it is `⌈q⌉`. -/
def jsCeil (q : ℚ) : ℤ := -⌊-q⌋

/-- Assignment priority (type `Priority` of the TS sources). -/
inductive Priority
  | low
  | medium
  | high
deriving DecidableEq, Repr

/-- `calculatePriorityFromDeadline` from src/utils/helpers.ts: zero the time
of day on `now`, move the due date to end of day, take the difference in
milliseconds, divide by a day and round up; `high` when at most 2, `medium`
when at most 5, otherwise `low`. -/
def calculatePriorityFromDeadline (dueDate : JsDate) (now : JsDate) : Priority :=
  let nowStart := now.startOfDay
  let due := dueDate.endOfDay
  let diffTime : ℤ := due.getTime - nowStart.getTime
  let diffDays : ℤ := jsCeil ((diffTime : ℚ) / (msPerDay : ℚ))
  if diffDays ≤ 2 then .high
  else if diffDays ≤ 5 then .medium
  else .low

/-- `isOverdue` from src/utils/helpers.ts: `now` is strictly after the last
millisecond of the due date's day. -/
def isOverdue (dueDate : JsDate) (now : JsDate) : Bool :=
  now.getTime > dueDate.endOfDay.getTime

/-- Letter grades. -/
inductive LetterGrade
  | A
  | B
  | C
  | D
  | F
deriving DecidableEq, Repr

/-- `calculateLetterGrade` from src/utils/helpers.ts. -/
def calculateLetterGrade (score : ℚ) : LetterGrade :=
  if score ≥ 90 then .A
  else if score ≥ 80 then .B
  else if score ≥ 70 then .C
  else if score ≥ 60 then .D
  else .F

/-- One rubric line item as it reaches `calculateTotalFromRubric`: a weight
and an optional score.  The TS objects also carry identifying fields which the
computation never reads; they are represented by `criterionId`. -/
structure RubricScore where
  criterionId : String
  weight : ℚ
  score : Option ℚ
deriving DecidableEq, Repr

/-- `sanitizeRubricScores` from src/routes/grading.ts drops a criterion's
`score` field unless it holds a number.  In this model a score is already
either a present rational or absent, so the map rebuilds each criterion
unchanged. -/
def sanitizeRubricScores (rs : List RubricScore) : List RubricScore :=
  rs.map (fun c => { criterionId := c.criterionId, weight := c.weight, score := c.score })

/-- Loop body of `calculateTotalFromRubric`; the accumulator is
`(totalWeight, weightedScore)`, and criteria without a score are skipped. -/
def rubricStep (acc : ℚ × ℚ) (c : RubricScore) : ℚ × ℚ :=
  match c.score with
  | some s => (acc.1 + c.weight, acc.2 + s * c.weight / 100)
  | none => acc

/-- `calculateTotalFromRubric` from src/utils/helpers.ts: fold over the
criteria accumulating `(totalWeight, weightedScore)`; `0` when the
accumulated weight is `0`, otherwise
`Math.round(weightedScore / totalWeight * 100)`. -/
def calculateTotalFromRubric (rubricScores : List RubricScore) : ℤ :=
  let acc := rubricScores.foldl rubricStep (0, 0)
  if acc.1 = 0 then 0 else jsRound (acc.2 / acc.1 * 100)

/-- The criteria of a rubric that carry a score. -/
def scoredCriteria (rs : List RubricScore) : List RubricScore :=
  rs.filter (fun c => c.score.isSome)

/-- Rubric total as the specification words it: the weighted average of the
scored criteria — the sum over criteria with a score present of
`score * weight / 100`, divided by the sum of the weights of those scored
criteria, times 100 (that is, `round((Σ score·weight) / (Σ weight))`),
rounded to the nearest integer; criteria without a score contribute to
neither sum, and if no criterion has a score the total is `0`. -/
def specRubricTotal (rs : List RubricScore) : ℤ :=
  let scored := scoredCriteria rs
  if scored = [] then 0
  else
    jsRound (((scored.map (fun c => c.score.getD 0 * c.weight)).sum) /
      ((scored.map (fun c => c.weight)).sum))

/-- Query-string pagination parameters after `parseInt`: `none` models an
absent or non-numeric (`NaN`) value. -/
structure PaginationParams where
  page : ℤ
  limit : ℤ
  offset : ℤ
deriving DecidableEq, Repr

/-- `getPaginationParams` from src/utils/helpers.ts:
`page = Math.max(1, parseInt(query.page) || 1)` and
`limit = Math.min(100, Math.max(1, parseInt(query.limit) || 20))`.
JS `||` also replaces a parsed `0` by the default. -/
def getPaginationParams (pageQ limitQ : Option ℤ) : PaginationParams :=
  let pageRaw : ℤ := match pageQ with
    | none => 1
    | some v => if v = 0 then 1 else v
  let limitRaw : ℤ := match limitQ with
    | none => 20
    | some v => if v = 0 then 20 else v
  let page := max 1 pageRaw
  let limit := min 100 (max 1 limitRaw)
  ⟨page, limit, (page - 1) * limit⟩

/-- The paginated response envelope built by `buildPaginatedResponse`. -/
structure Paginated (α : Type) where
  data : List α
  total : ℤ
  page : ℤ
  limit : ℤ
  totalPages : ℤ

/-- `buildPaginatedResponse` from src/utils/helpers.ts:
`totalPages = Math.ceil(total / limit)`. -/
def buildPaginatedResponse (data : List α) (total page limit : ℤ) : Paginated α :=
  ⟨data, total, page, limit, jsCeil ((total : ℚ) / (limit : ℚ))⟩

/-- `Array.prototype.slice(start, stop)` for the nonnegative indices the
handlers use: the elements at positions `start ≤ i < stop`. -/
def jsSlice (l : List α) (start stop : ℤ) : List α :=
  (l.drop start.toNat).take (stop.toNat - start.toNat)

/-- The pagination pattern every list handler repeats:
`total = items.length`, `paginated = items.slice((page-1)*limit, page*limit)`,
then `buildPaginatedResponse(paginated, total, page, limit)`. -/
def paginateItems (items : List α) (page limit : ℤ) : Paginated α :=
  buildPaginatedResponse (jsSlice items ((page - 1) * limit) (page * limit))
    (items.length : ℤ) page limit

/-! ## Users, errors and JS truthiness -/

/-- User roles. -/
inductive Role
  | student
  | teacher
deriving DecidableEq, Repr

/-- The authenticated user attached to a request by the auth middleware. -/
structure AuthUser where
  uid : String
  email : String
  role : Role
  name : String
deriving DecidableEq, Repr

/-- An error response: HTTP status code plus the `error` message of the JSON
envelope. -/
structure HttpError where
  status : ℕ
  message : String
deriving DecidableEq, Repr

/-- JS truthiness of an optional string: `false` for a missing value and for
the empty string. -/
def truthyStr : Option String → Bool
  | none => false
  | some s => !s.isEmpty

/-- `if (upd !== undefined) field = upd` merge semantics of a Firestore
`update`. -/
def mergeOpt (upd old : Option α) : Option α :=
  match upd with
  | some v => some v
  | none => old

/-! ## Assignments -/

/-- The (overloaded) assignment status enum of the TS sources: it carries the
lifecycle states together with submission-like states (see spec §9). -/
inductive AssignmentStatus
  | draft
  | published
  | submitted
  | late
  | closed
deriving DecidableEq, Repr

/-- Assignment difficulty. -/
inductive Difficulty
  | easy
  | medium
  | hard
deriving DecidableEq, Repr

/-- A rubric criterion attached to an assignment. -/
structure RubricCriterion where
  id : String
  title : String
  weight : ℚ
deriving DecidableEq, Repr

/-- Assignment document. -/
structure Assignment where
  id : String
  title : String
  description : String
  dueDate : JsDate
  createdAt : JsDate
  updatedAt : Option JsDate
  teacherId : String
  teacherName : String
  status : AssignmentStatus
  priority : Priority
  difficulty : Difficulty
  allowLateSubmission : Bool
  maxAttempts : ℤ
  rubric : Option (List RubricCriterion)
  attachmentUrl : Option String
deriving DecidableEq, Repr

/-- Body of `POST /api/assignments`.  The handler never reads `priority`; it
is included to state that a caller-supplied priority is ignored. -/
structure CreateAssignmentDTO where
  title : Option String
  description : Option String
  dueDate : Option JsDate
  difficulty : Option Difficulty
  status : Option AssignmentStatus
  priority : Option Priority
  allowLateSubmission : Option Bool
  maxAttempts : Option ℤ
  rubric : Option (List RubricCriterion)
  attachmentUrl : Option String
deriving DecidableEq, Repr

/-- Body of `PUT /api/assignments/:id`. -/
structure UpdateAssignmentDTO where
  title : Option String
  description : Option String
  dueDate : Option JsDate
  difficulty : Option Difficulty
  status : Option AssignmentStatus
  priority : Option Priority
  allowLateSubmission : Option Bool
  maxAttempts : Option ℤ
  rubric : Option (List RubricCriterion)
  attachmentUrl : Option String
deriving DecidableEq, Repr

/-- The `rubric-${id}-${index}` ids stamped onto rubric criteria at
assignment creation. -/
def assignRubricIds (newId : String) (rubric : List RubricCriterion) : List RubricCriterion :=
  rubric.enum.map (fun p => { p.2 with id := "rubric-" ++ newId ++ "-" ++ toString p.1 })

/-- The `POST /api/assignments` handler after authentication and the teacher
role check (src/routes/assignments.ts).  `sanitizeString` (trim plus HTML tag
stripping) is orthogonal to every claim and is not modelled; titles here stand
for their sanitized values.  `newId` stands for the `generateId()` result. -/
def createAssignment (user : AuthUser) (data : CreateAssignmentDTO) (now : JsDate)
    (newId : String) : Except HttpError Assignment :=
  match data.dueDate, data.difficulty with
  | some due, some diff =>
    if truthyStr data.title && truthyStr data.description then
      .ok {
        id := newId
        title := data.title.getD ""
        description := data.description.getD ""
        dueDate := due
        createdAt := now
        updatedAt := none
        teacherId := user.uid
        teacherName := user.name
        status := data.status.getD .published
        priority := calculatePriorityFromDeadline due now
        difficulty := diff
        allowLateSubmission := data.allowLateSubmission.getD true
        maxAttempts := data.maxAttempts.getD 3
        rubric := data.rubric.map (assignRubricIds newId)
        attachmentUrl := if truthyStr data.attachmentUrl then data.attachmentUrl else none }
    else .error ⟨400, "Missing required fields: title, description, dueDate, difficulty"⟩
  | _, _ => .error ⟨400, "Missing required fields: title, description, dueDate, difficulty"⟩

/-- The `PUT /api/assignments/:id` handler after authentication and the
teacher role check: ownership check, then field-by-field merge; a new due date
recomputes the priority. -/
def updateAssignment (assignment : Option Assignment) (user : AuthUser)
    (updates : UpdateAssignmentDTO) (now : JsDate) : Except HttpError Assignment :=
  match assignment with
  | none => .error ⟨404, "Assignment not found"⟩
  | some a =>
    if a.teacherId ≠ user.uid then .error ⟨403, "You can only edit your own assignments"⟩
    else .ok {
      a with
      updatedAt := some now
      title := if truthyStr updates.title then updates.title.getD a.title else a.title
      description :=
        if truthyStr updates.description then updates.description.getD a.description
        else a.description
      dueDate := updates.dueDate.getD a.dueDate
      priority :=
        match updates.dueDate with
        | some d => calculatePriorityFromDeadline d now
        | none => a.priority
      status := updates.status.getD a.status
      difficulty := updates.difficulty.getD a.difficulty
      allowLateSubmission := updates.allowLateSubmission.getD a.allowLateSubmission
      maxAttempts := updates.maxAttempts.getD a.maxAttempts
      rubric := mergeOpt updates.rubric a.rubric
      attachmentUrl := mergeOpt updates.attachmentUrl a.attachmentUrl }

/-! ## Submissions -/

/-- Submission status. -/
inductive SubmissionStatus
  | submitted
  | late
deriving DecidableEq, Repr

/-- One entry of the append-only attempt history. -/
structure SubmissionAttempt where
  attemptNumber : ℤ
  submittedAt : JsDate
  textContent : Option String
  fileUrl : Option String
deriving DecidableEq, Repr

/-- Submission document. -/
structure Submission where
  id : String
  assignmentId : String
  studentId : String
  studentName : String
  submittedAt : JsDate
  status : SubmissionStatus
  attemptHistory : List SubmissionAttempt
  currentAttempt : ℤ
  integrityConfirmed : Bool
  textContent : Option String
  fileUrl : Option String
  gradeId : Option String
  feedbackId : Option String
deriving DecidableEq, Repr

/-- Body of `POST /api/submissions`. -/
structure CreateSubmissionDTO where
  assignmentId : String
  textContent : Option String
  fileUrl : Option String
  integrityConfirmed : Bool
deriving DecidableEq, Repr

/-- The `...(x && { field: x })` spread: the field is present iff the value is
truthy. -/
def contentOpt (o : Option String) : Option String :=
  if truthyStr o then o else none

/-- The `newAttempt` object built by `POST /api/submissions`: attempt number
`n`, submission time, and the truthy content fields of the request. -/
def mkAttempt (data : CreateSubmissionDTO) (now : JsDate) (n : ℤ) : SubmissionAttempt :=
  { attemptNumber := n
    submittedAt := now
    textContent := contentOpt data.textContent
    fileUrl := contentOpt data.fileUrl }

/-- The `POST /api/submissions` handler (src/routes (files.ts part), lines
609-760) after authentication and the student role check, as a function of its
two store lookups: the assignment document named by the request and the
existing submission for `(assignmentId, studentId)` if any.  `newId` stands
for the `generateId()` result used when a first submission is created. -/
def postSubmission (assignment : Option Assignment) (existing : Option Submission)
    (user : AuthUser) (data : CreateSubmissionDTO) (now : JsDate) (newId : String) :
    Except HttpError Submission :=
  if data.assignmentId.isEmpty then .error ⟨400, "Assignment ID is required"⟩
  else if ¬ truthyStr data.textContent ∧ ¬ truthyStr data.fileUrl then
    .error ⟨400, "Either text content or file is required"⟩
  else if ¬ data.integrityConfirmed then
    .error ⟨400, "Academic integrity must be confirmed"⟩
  else match assignment with
  | none => .error ⟨404, "Assignment not found"⟩
  | some a =>
    if a.status ≠ .published then .error ⟨400, "Cannot submit to this assignment"⟩
    else
      let overdue := isOverdue a.dueDate now
      if overdue ∧ ¬ a.allowLateSubmission then
        .error ⟨400, "Late submissions are not allowed for this assignment"⟩
      else match existing with
      | some ex =>
        if ex.currentAttempt ≥ a.maxAttempts then
          .error ⟨400, "Maximum attempts (" ++ toString a.maxAttempts ++ ") reached"⟩
        else
          .ok { ex with
            submittedAt := now
            status := if overdue then .late else .submitted
            attemptHistory := ex.attemptHistory ++ [mkAttempt data now (ex.currentAttempt + 1)]
            currentAttempt := ex.currentAttempt + 1
            integrityConfirmed := data.integrityConfirmed
            textContent := if truthyStr data.textContent then data.textContent else ex.textContent
            fileUrl := if truthyStr data.fileUrl then data.fileUrl else ex.fileUrl }
      | none =>
        .ok {
          id := newId
          assignmentId := data.assignmentId
          studentId := user.uid
          studentName := user.name
          submittedAt := now
          status := if overdue then .late else .submitted
          attemptHistory := [mkAttempt data now 1]
          currentAttempt := 1
          integrityConfirmed := data.integrityConfirmed
          textContent := contentOpt data.textContent
          fileUrl := contentOpt data.fileUrl
          gradeId := none
          feedbackId := none }

/-- The Firestore query `where assignmentId == aid, where studentId == sid,
limit 1`. -/
def findSubmissionByKey (subs : List Submission) (aid sid : String) : Option Submission :=
  subs.find? (fun s => s.assignmentId == aid && s.studentId == sid)

/-- Document lookup in the assignments collection. -/
def lookupAssignment (assignments : List Assignment) (id : String) : Option Assignment :=
  assignments.find? (fun a => a.id == id)

/-- `POST /api/submissions` at store level: the handler performs no write on
any error path; on success it updates the existing submission document in
place or appends a new one. -/
def submitHandler (assignments : List Assignment) (subs : List Submission)
    (user : AuthUser) (data : CreateSubmissionDTO) (now : JsDate) (newId : String) :
    Except HttpError Submission × List Submission :=
  let existing := findSubmissionByKey subs data.assignmentId user.uid
  match postSubmission (lookupAssignment assignments data.assignmentId) existing user data now newId with
  | .error e => (.error e, subs)
  | .ok s2 =>
    (.ok s2,
     match existing with
     | some ex => subs.map (fun s => if s.id == ex.id then s2 else s)
     | none => subs ++ [s2])

/-! ## Grades -/

/-- Grade status. -/
inductive GradeStatus
  | notGraded
  | draft
  | finalized
deriving DecidableEq, Repr

/-- Grade document. -/
structure Grade where
  id : String
  submissionId : String
  teacherId : String
  teacherName : String
  status : GradeStatus
  gradedAt : JsDate
  publishedAt : Option JsDate
  numericScore : Option ℚ
  letterGrade : Option LetterGrade
  rubricScores : Option (List RubricScore)
  totalScore : Option ℚ
  comments : Option String
deriving DecidableEq, Repr

/-- Body of `POST /api/grading/grades`. -/
structure CreateGradeDTO where
  submissionId : String
  numericScore : Option ℚ
  letterGrade : Option LetterGrade
  rubricScores : Option (List RubricScore)
  totalScore : Option ℚ
  comments : Option String
  status : Option GradeStatus
deriving DecidableEq, Repr

/-- Body of `PUT /api/grading/grades/:id`. -/
structure UpdateGradeDTO where
  numericScore : Option ℚ
  letterGrade : Option LetterGrade
  rubricScores : Option (List RubricScore)
  totalScore : Option ℚ
  comments : Option String
  status : Option GradeStatus
deriving DecidableEq, Repr

/-- The letter grade after the `else if` branch of grade creation:
derived from the numeric score exactly when one is present and no letter
grade was supplied. -/
def letterViaNumeric (numericScore : Option ℚ) (letterGrade : Option LetterGrade) :
    Option LetterGrade :=
  match numericScore, letterGrade with
  | some n, none => some (calculateLetterGrade n)
  | _, lg => lg

/-- The score-derivation block of `POST /api/grading/grades` (grading.ts lines
252-263): returns the `(totalScore, letterGrade, rubricScores)` triple stored
on the new grade.  A supplied empty rubric list is truthy in JS, so it is
stored, but the derivation falls through to the numeric branch. -/
def deriveGradeFields (data : CreateGradeDTO) :
    Option ℚ × Option LetterGrade × Option (List RubricScore) :=
  match data.rubricScores with
  | some rs =>
    if rs.isEmpty then
      (data.totalScore, letterViaNumeric data.numericScore data.letterGrade, some rs)
    else
      let sanitized := sanitizeRubricScores rs
      let t : ℚ := ((calculateTotalFromRubric sanitized : ℤ) : ℚ)
      (some t,
       (match data.letterGrade with
        | some lg => some lg
        | none => some (calculateLetterGrade t)),
       some sanitized)
  | none =>
    (data.totalScore, letterViaNumeric data.numericScore data.letterGrade, none)

/-- The `POST /api/grading/grades` handler after authentication and the
teacher role check, as a function of its store lookups: the submission named
by the request and that submission's assignment. -/
def createGrade (user : AuthUser) (data : CreateGradeDTO)
    (submission : Option Submission) (assignment : Option Assignment)
    (now : JsDate) (newId : String) : Except HttpError Grade :=
  if data.submissionId.isEmpty then .error ⟨400, "Submission ID is required"⟩
  else match submission with
  | none => .error ⟨404, "Submission not found"⟩
  | some sub =>
    match assignment with
    | none => .error ⟨403, "You can only grade submissions for your own assignments"⟩
    | some a =>
      if a.teacherId ≠ user.uid then
        .error ⟨403, "You can only grade submissions for your own assignments"⟩
      else if sub.gradeId.isSome then
        .error ⟨409, "Grade already exists. Use PUT to update."⟩
      else
        let derived := deriveGradeFields data
        .ok {
          id := newId
          submissionId := data.submissionId
          teacherId := user.uid
          teacherName := user.name
          status := data.status.getD .draft
          gradedAt := now
          publishedAt := if data.status = some .finalized then some now else none
          numericScore := data.numericScore
          letterGrade := derived.2.1
          rubricScores := derived.2.2
          totalScore := derived.1
          comments := if truthyStr data.comments then data.comments else none }

/-- The `PUT /api/grading/grades/:id` handler after authentication and the
teacher role check.  A supplied rubric recomputes `totalScore`, but a
caller-supplied `totalScore` is assigned afterwards and wins. -/
def updateGrade (grade : Option Grade) (user : AuthUser) (updates : UpdateGradeDTO)
    (now : JsDate) : Except HttpError Grade :=
  match grade with
  | none => .error ⟨404, "Grade not found"⟩
  | some g =>
    if g.teacherId ≠ user.uid then .error ⟨403, "You can only update your own grades"⟩
    else
      let hasAny := updates.numericScore.isSome || updates.letterGrade.isSome ||
        updates.rubricScores.isSome || updates.totalScore.isSome ||
        updates.comments.isSome || updates.status.isSome
      if !hasAny then .error ⟨400, "No valid fields provided to update"⟩
      else .ok {
        g with
        numericScore := mergeOpt updates.numericScore g.numericScore
        letterGrade := if updates.letterGrade.isSome then updates.letterGrade else g.letterGrade
        rubricScores :=
          match updates.rubricScores with
          | some rs => some (sanitizeRubricScores rs)
          | none => g.rubricScores
        totalScore :=
          match updates.totalScore with
          | some t => some t
          | none =>
            match updates.rubricScores with
            | some rs => some ((calculateTotalFromRubric (sanitizeRubricScores rs) : ℤ) : ℚ)
            | none => g.totalScore
        comments := mergeOpt updates.comments g.comments
        status := updates.status.getD g.status
        publishedAt :=
          if updates.status = some .finalized ∧ g.publishedAt = none then some now
          else g.publishedAt }

/-- The `POST /api/grading/grades/:id/publish` handler after authentication
and the teacher role check.  Note that the already-published failure carries
HTTP status 400, not 409. -/
def publishGrade (grade : Option Grade) (user : AuthUser) (now : JsDate) :
    Except HttpError Grade :=
  match grade with
  | none => .error ⟨404, "Grade not found"⟩
  | some g =>
    if g.teacherId ≠ user.uid then .error ⟨403, "You can only publish your own grades"⟩
    else if g.status = .finalized then .error ⟨400, "Grade is already published"⟩
    else .ok { g with status := .finalized, publishedAt := some now }

/-- Document lookup in the grades collection. -/
def lookupGrade (grades : List Grade) (id : String) : Option Grade :=
  grades.find? (fun g => g.id == id)

/-- Document lookup in the submissions collection. -/
def lookupSubmission (subs : List Submission) (id : String) : Option Submission :=
  subs.find? (fun s => s.id == id)

/-- `POST /api/grading/grades/:id/publish` at store level: no write happens on
any error path. -/
def publishGradeHandler (grades : List Grade) (id : String) (user : AuthUser)
    (now : JsDate) : Except HttpError Grade × List Grade :=
  match publishGrade (lookupGrade grades id) user now with
  | .error e => (.error e, grades)
  | .ok g2 => (.ok g2, grades.map (fun g => if g.id == id then g2 else g))

/-- The `GET /api/grading/grades/:id` handler: students may only fetch their
own finalized grades. -/
def getGradeById (grades : List Grade) (subs : List Submission) (id : String)
    (user : AuthUser) : Except HttpError Grade :=
  match lookupGrade grades id with
  | none => .error ⟨404, "Grade not found"⟩
  | some g =>
    match lookupSubmission subs g.submissionId with
    | none => .error ⟨404, "Associated submission not found"⟩
    | some sub =>
      if user.role = .student ∧ (sub.studentId ≠ user.uid ∨ g.status ≠ .finalized) then
        .error ⟨403, "Access denied"⟩
      else .ok g

/-! ## Student grade listing (`GET /api/grading/grades`, student branch) -/

/-- Ids of the student's own submissions. -/
def studentSubmissionIds (subs : List Submission) (uid : String) : List String :=
  (subs.filter (fun s => s.studentId == uid)).map (fun s => s.id)

/-- The chunking loop `for (i = 0; i < ids.length; i += 10)`. -/
def chunksOf10 (l : List α) : List (List α) :=
  match l with
  | [] => []
  | a :: rest => (a :: rest).take 10 :: chunksOf10 (rest.drop 9)
termination_by l.length
decreasing_by simp; omega

/-- The per-chunk Firestore query
`where submissionId in chunk, where status == finalized`, concatenated in
chunk order. -/
def collectFinalizedGrades (grades : List Grade) : List (List String) → List Grade
  | [] => []
  | chunk :: rest =>
    grades.filter (fun g => chunk.contains g.submissionId && g.status == .finalized) ++
      collectFinalizedGrades grades rest

/-- The in-memory sort by `gradedAt` descending. -/
def sortGradesByGradedAt (gs : List Grade) : List Grade :=
  gs.mergeSort (fun a b => decide (b.gradedAt.getTime ≤ a.gradedAt.getTime))

/-- The student branch of `GET /api/grading/grades`: fetch the student's
submissions, batch-fetch their finalized grades in chunks of 10, sort by
grading date, paginate. -/
def getGradesStudentPage (subs : List Submission) (grades : List Grade)
    (user : AuthUser) (pageQ limitQ : Option ℤ) : Paginated Grade :=
  let params := getPaginationParams pageQ limitQ
  let ids := studentSubmissionIds subs user.uid
  let raw := if ids.isEmpty then [] else collectFinalizedGrades grades (chunksOf10 ids)
  let sorted := sortGradesByGradedAt raw
  paginateItems sorted params.page params.limit

/-! ## Grade review requests -/

/-- Review request status. -/
inductive ReviewStatus
  | pending
  | accepted
  | declined
deriving DecidableEq, Repr

/-- Grade review request document. -/
structure GradeReviewRequest where
  id : String
  gradeId : String
  studentId : String
  studentName : String
  assignmentId : String
  assignmentTitle : String
  message : String
  status : ReviewStatus
  createdAt : JsDate
  respondedAt : Option JsDate
  responseMessage : Option String
  teacherId : String
deriving DecidableEq, Repr

/-- Body of `PUT /api/grading/review-requests/:id/respond`; `none` models a
missing or unrecognized status string. -/
structure RespondToReviewRequestDTO where
  status : Option ReviewStatus
  message : Option String
deriving DecidableEq, Repr

/-- The `PUT /api/grading/review-requests/:id/respond` handler after
authentication and the teacher role check.  Note that the already-responded
failure carries HTTP status 400, not 409. -/
def respondToReviewRequest (request : Option GradeReviewRequest) (user : AuthUser)
    (data : RespondToReviewRequestDTO) (now : JsDate) :
    Except HttpError GradeReviewRequest :=
  match data.status with
  | none => .error ⟨400, "Valid status (accepted/declined) is required"⟩
  | some s =>
    if s = .pending then .error ⟨400, "Valid status (accepted/declined) is required"⟩
    else match request with
    | none => .error ⟨404, "Review request not found"⟩
    | some r =>
      if r.teacherId ≠ user.uid then
        .error ⟨403, "You can only respond to your own review requests"⟩
      else if r.status ≠ .pending then
        .error ⟨400, "Review request has already been responded to"⟩
      else .ok { r with
        status := s
        respondedAt := some now
        responseMessage := if truthyStr data.message then data.message else none }

/-- Document lookup in the review requests collection. -/
def lookupReviewRequest (requests : List GradeReviewRequest) (id : String) :
    Option GradeReviewRequest :=
  requests.find? (fun r => r.id == id)

/-- `PUT /api/grading/review-requests/:id/respond` at store level: no write
happens on any error path. -/
def respondHandler (requests : List GradeReviewRequest) (id : String)
    (user : AuthUser) (data : RespondToReviewRequestDTO) (now : JsDate) :
    Except HttpError GradeReviewRequest × List GradeReviewRequest :=
  match respondToReviewRequest (lookupReviewRequest requests id) user data now with
  | .error e => (.error e, requests)
  | .ok r2 => (.ok r2, requests.map (fun r => if r.id == id then r2 else r))

/-! ## Concrete fixtures used by example theorems, counterexamples and
witnesses -/

/-- The rubric example of the specification:
`[{weight:40,score:90},{weight:30,score:80},{weight:30}]`. -/
def exampleRubric : List RubricScore :=
  [⟨"c1", 40, some 90⟩, ⟨"c2", 30, some 80⟩, ⟨"c3", 30, none⟩]

/-- A teacher. -/
def uT : AuthUser := ⟨"t1", "t@example.com", .teacher, "T"⟩

/-- A student. -/
def uS : AuthUser := ⟨"stu1", "s@example.com", .student, "Stu"⟩

/-- A submission by `uS` for assignment `a1`, not yet graded. -/
def subEx : Submission :=
  ⟨"s1", "a1", "stu1", "Stu", ⟨0, 0⟩, .submitted,
    [⟨1, ⟨0, 0⟩, some "first", none⟩], 1, true, some "first", none, none, none⟩

/-- A published assignment owned by `uT`. -/
def aEx : Assignment :=
  ⟨"a1", "Homework", "Do it", ⟨10, 0⟩, ⟨0, 0⟩, none, "t1", "T", .published, .low,
    .easy, true, 3, none, none⟩

/-- A grade-creation body carrying the example rubric and no letter grade. -/
def gradeDataEx : CreateGradeDTO := ⟨"s1", none, none, some exampleRubric, none, none, none⟩

/-- The grade the model creates from `gradeDataEx`. -/
def gradeEx : Grade :=
  { id := "g1", submissionId := "s1", teacherId := "t1", teacherName := "T",
    status := .draft, gradedAt := ⟨1, 0⟩, publishedAt := none,
    numericScore := none, letterGrade := some .B,
    rubricScores := some exampleRubric, totalScore := some 86, comments := none }

/-- An assignment-creation body that omits status, late policy and attempt
limit but carries a caller-chosen priority (which the handler must ignore). -/
def assignDataEx : CreateAssignmentDTO :=
  ⟨some "Hw", some "Do it", some ⟨3, 0⟩, some .easy, none, some .low, none, none, none, none⟩

/-- The assignment the model creates from `assignDataEx` at `now = day 0`. -/
def assignEx : Assignment :=
  ⟨"a9", "Hw", "Do it", ⟨3, 0⟩, ⟨0, 0⟩, none, "t1", "T", .published, .medium,
    .easy, true, 3, none, none⟩

/-- A published assignment that allows late submission but grants a single
attempt. -/
def aLateEx : Assignment :=
  ⟨"aL", "Late ok", "D", ⟨0, 0⟩, ⟨0, 0⟩, none, "t1", "T", .published, .low,
    .easy, true, 1, none, none⟩

/-- An existing submission for `aLateEx` that has used its only attempt. -/
def exFullEx : Submission :=
  ⟨"sL", "aL", "stu1", "Stu", ⟨0, 0⟩, .submitted,
    [⟨1, ⟨0, 0⟩, some "v1", none⟩], 1, true, some "v1", none, none, none⟩

/-- A published assignment with `maxAttempts = 0`. -/
def aZeroEx : Assignment :=
  ⟨"aZ", "Zero", "D", ⟨100, 0⟩, ⟨0, 0⟩, none, "t1", "T", .published, .low,
    .easy, true, 0, none, none⟩

/-- A valid submission body. -/
def subDataEx : CreateSubmissionDTO := ⟨"aL", some "hello", none, true⟩

/-- A finalized grade of `uT` for submission `s1`. -/
def gradeFinalEx : Grade :=
  { id := "gf", submissionId := "s1", teacherId := "t1", teacherName := "T",
    status := .finalized, gradedAt := ⟨1, 0⟩, publishedAt := some ⟨1, 0⟩,
    numericScore := none, letterGrade := none, rubricScores := none,
    totalScore := none, comments := none }

/-- A draft grade of `uT`. -/
def gradeDraftEx : Grade :=
  { id := "gd", submissionId := "s1", teacherId := "t1", teacherName := "T",
    status := .draft, gradedAt := ⟨1, 0⟩, publishedAt := none,
    numericScore := none, letterGrade := none, rubricScores := none,
    totalScore := none, comments := none }

/-- A pending review request addressed to `uT`. -/
def rrPendingEx : GradeReviewRequest :=
  ⟨"r1", "gf", "stu1", "Stu", "a1", "Homework", "please", .pending, ⟨2, 0⟩,
    none, none, "t1"⟩

/-- An already-accepted review request addressed to `uT`. -/
def rrAcceptedEx : GradeReviewRequest :=
  ⟨"r2", "gf", "stu1", "Stu", "a1", "Homework", "please", .accepted, ⟨2, 0⟩,
    some ⟨3, 0⟩, none, "t1"⟩

/-! ## Helper lemmas -/

/-- `sanitizeRubricScores` rebuilds every criterion unchanged. -/
theorem sanitizeRubricScores_eq (rs : List RubricScore) : sanitizeRubricScores rs = rs := by
  simp [sanitizeRubricScores]

/-- The weighted total of the specification's example rubric. -/
theorem exampleRubric_total : calculateTotalFromRubric exampleRubric = 86 := by
  norm_num [exampleRubric, calculateTotalFromRubric, rubricStep, jsRound]

/-- Field projections of a successfully created grade. -/
theorem createGrade_ok_fields {user : AuthUser} {data : CreateGradeDTO} {sub : Submission}
    {a : Assignment} {now : JsDate} {newId : String} {g : Grade}
    (h : createGrade user data (some sub) (some a) now newId = .ok g) :
    g.totalScore = (deriveGradeFields data).1
      ∧ g.letterGrade = (deriveGradeFields data).2.1
      ∧ g.rubricScores = (deriveGradeFields data).2.2
      ∧ g.numericScore = data.numericScore
      ∧ g.status = data.status.getD .draft := by
  simp only [createGrade] at h
  split_ifs at h <;>
    first
      | exact Except.noConfusion h
      | (rw [← Except.ok.inj h]; exact ⟨rfl, rfl, rfl, rfl, rfl⟩)

/-- Field projections of a successfully updated grade. -/
theorem updateGrade_ok_fields {g0 : Grade} {user : AuthUser} {updates : UpdateGradeDTO}
    {now : JsDate} {g : Grade}
    (h : updateGrade (some g0) user updates now = .ok g) :
    g.totalScore =
      (match updates.totalScore with
       | some t => some t
       | none =>
         match updates.rubricScores with
         | some rs => some ((calculateTotalFromRubric (sanitizeRubricScores rs) : ℤ) : ℚ)
         | none => g0.totalScore)
      ∧ g.rubricScores =
        (match updates.rubricScores with
         | some rs => some (sanitizeRubricScores rs)
         | none => g0.rubricScores) := by
  simp only [updateGrade] at h
  split_ifs at h <;>
    first
      | exact Except.noConfusion h
      | (rw [← Except.ok.inj h]; exact ⟨rfl, rfl⟩)

theorem jsCeil_eq_ceil (q : ℚ) : jsCeil q = ⌈q⌉ := by
  rw [jsCeil, Int.floor_neg]
  ring

/-- The millisecond arithmetic of `calculatePriorityFromDeadline` in closed
form: for a due date `k` calendar days after `now`, `diffDays` is `k + 1`. -/
theorem jsCeil_day_div (k : ℤ) :
    jsCeil (((k * msPerDay + (msPerDay - 1) : ℤ) : ℚ) / ((msPerDay : ℤ) : ℚ)) = k + 1 := by
  rw [jsCeil_eq_ceil, Int.ceil_eq_iff]
  constructor
  · rw [lt_div_iff₀ (by norm_num [msPerDay])]
    push_cast [msPerDay]
    linarith
  · rw [div_le_iff₀ (by norm_num [msPerDay])]
    push_cast [msPerDay]
    linarith

/-- `calculatePriorityFromDeadline` depends only on the calendar-day
difference `k = due.day - now.day`: `high` for `k ≤ 1`, `medium` for
`2 ≤ k ≤ 4`, `low` for `k ≥ 5`. -/
theorem calculatePriorityFromDeadline_closed (due now : JsDate) :
    calculatePriorityFromDeadline due now =
      (if due.day - now.day ≤ 1 then .high
       else if due.day - now.day ≤ 4 then .medium
       else .low) := by
  have h1 : (due.endOfDay.getTime - now.startOfDay.getTime : ℤ)
      = (due.day - now.day) * msPerDay + (msPerDay - 1) := by
    simp only [JsDate.getTime, JsDate.endOfDay, JsDate.startOfDay]
    ring
  simp only [calculatePriorityFromDeadline, h1, jsCeil_day_div]
  split_ifs <;> first | rfl | omega

/-- The fold of `calculateTotalFromRubric` computes the scored criteria's
weight sum and (scaled) weighted score sum. -/
theorem rubric_foldl (rs : List RubricScore) (a b : ℚ) :
    rs.foldl rubricStep (a, b) =
      (a + ((scoredCriteria rs).map (fun c => c.weight)).sum,
       b + ((scoredCriteria rs).map (fun c => c.score.getD 0 * c.weight)).sum / 100) := by
  induction rs generalizing a b with
  | nil => simp [scoredCriteria]
  | cons c rest ih =>
    cases hs : c.score with
    | none =>
      simp only [List.foldl_cons, rubricStep, hs]
      rw [ih]
      simp [scoredCriteria, List.filter_cons, hs]
    | some s =>
      simp only [List.foldl_cons, rubricStep, hs]
      rw [ih]
      simp only [scoredCriteria, List.filter_cons, hs, Option.isSome_some, if_true,
        List.map_cons, List.sum_cons, Option.getD_some, Prod.mk.injEq]
      constructor <;> ring

/-- Members of a chunk produced by `chunksOf10` are members of the original
list. -/
theorem mem_of_mem_chunksOf10 {x : α} {c : List α} :
    ∀ {l : List α}, c ∈ chunksOf10 l → x ∈ c → x ∈ l := by
  intro l
  induction l using chunksOf10.induct with
  | case1 => simp [chunksOf10]
  | case2 a rest ih =>
    intro hc hx
    rw [chunksOf10] at hc
    rcases List.mem_cons.mp hc with h | h
    · exact List.take_subset _ _ (h ▸ hx)
    · exact List.mem_cons_of_mem a (List.drop_subset _ _ (ih h hx))

/-- Every grade collected by the chunked queries is a finalized grade of the
store whose submission id lies in one of the chunks. -/
theorem mem_collectFinalizedGrades {grades : List Grade} {g : Grade} :
    ∀ {chunks : List (List String)}, g ∈ collectFinalizedGrades grades chunks →
      g ∈ grades ∧ g.status = .finalized ∧ ∃ c ∈ chunks, g.submissionId ∈ c := by
  intro chunks
  induction chunks with
  | nil => simp [collectFinalizedGrades]
  | cons c rest ih =>
    intro hg
    simp only [collectFinalizedGrades, List.mem_append] at hg
    rcases hg with h | h
    · rw [List.mem_filter] at h
      obtain ⟨hmem, hcond⟩ := h
      simp only [Bool.and_eq_true, beq_iff_eq] at hcond
      refine ⟨hmem, hcond.2, c, List.mem_cons_self c rest, ?_⟩
      simpa using hcond.1
    · obtain ⟨hm, hst, c2, hc2, hmem2⟩ := ih h
      exact ⟨hm, hst, c2, List.mem_cons_of_mem c hc2, hmem2⟩

/-- A slice is a subset of the sliced list. -/
theorem jsSlice_subset (l : List α) (a b : ℤ) : jsSlice l a b ⊆ l := by
  intro x hx
  exact List.drop_subset _ _ (List.take_subset _ _ hx)

/-- The index window of page `p` with page size `l` has width exactly `l`. -/
theorem page_window (p l : ℤ) (hp : 1 ≤ p) (hl : 1 ≤ l) :
    ((p * l).toNat - ((p - 1) * l).toNat : ℕ) = l.toNat := by
  have h1 : 0 ≤ (p - 1) * l := mul_nonneg (by omega) (by omega)
  have h2 : p * l = (p - 1) * l + l := by ring
  omega

/-- Evaluation of grade creation on the example fixtures. -/
theorem createGrade_fixture_eval :
    createGrade uT gradeDataEx (some subEx) (some aEx) ⟨1, 0⟩ "g1" = .ok gradeEx := by
  norm_num +decide [createGrade, uT, gradeDataEx, subEx, aEx, gradeEx, deriveGradeFields,
    sanitizeRubricScores, exampleRubric, calculateTotalFromRubric, rubricStep,
    jsRound, calculateLetterGrade, truthyStr]

/-! ## Claims -/

/-- C1: for every list of rubric criteria, the rubric total computed when a
grade is created or updated equals the weighted average of the scored
criteria — `round((Σ score·weight over scored criteria) / (Σ weight over
scored criteria))` — criteria without a score contribute to neither sum, an
all-unscored list yields 0, and the specification's example list yields 86.
On creation the stored total is the computed total whenever a nonempty rubric
is supplied; on update it is whenever a rubric is supplied and no explicit
total accompanies it. -/
theorem C1_rubric_total_weighted_average :
    (∀ rs : List RubricScore, calculateTotalFromRubric rs = specRubricTotal rs)
    ∧ (∀ rs : List RubricScore, (∀ c ∈ rs, c.score = none) → calculateTotalFromRubric rs = 0)
    ∧ calculateTotalFromRubric exampleRubric = 86
    ∧ (∀ (user : AuthUser) (data : CreateGradeDTO) (sub : Submission) (a : Assignment)
        (now : JsDate) (newId : String) (rs : List RubricScore) (g : Grade),
        data.rubricScores = some rs → rs ≠ [] →
        createGrade user data (some sub) (some a) now newId = .ok g →
        g.totalScore = some ((calculateTotalFromRubric rs : ℤ) : ℚ))
    ∧ (∀ (user : AuthUser) (g0 : Grade) (updates : UpdateGradeDTO) (now : JsDate)
        (rs : List RubricScore) (g : Grade),
        updates.rubricScores = some rs → updates.totalScore = none →
        updateGrade (some g0) user updates now = .ok g →
        g.totalScore = some ((calculateTotalFromRubric rs : ℤ) : ℚ)) := by
  refine ⟨?_, ?_, exampleRubric_total, ?_, ?_⟩
  · intro rs
    simp only [calculateTotalFromRubric, specRubricTotal, rubric_foldl, zero_add]
    by_cases hW : ((scoredCriteria rs).map (fun c => c.weight)).sum = 0
    · rw [if_pos hW]
      split
      · rfl
      · rw [hW, div_zero]
        norm_num [jsRound]
    · rw [if_neg hW]
      have hne : ¬(scoredCriteria rs = []) := fun hnil => hW (by rw [hnil]; simp)
      rw [if_neg hne]
      congr 1
      field_simp
      ring
  · intro rs hnone
    have h : scoredCriteria rs = [] := by
      simp only [scoredCriteria, List.filter_eq_nil_iff]
      intro c hc
      simp [hnone c hc]
    simp only [calculateTotalFromRubric, rubric_foldl, zero_add, h]
    simp
  · intro user data sub a now newId rs g hrs hne hok
    rw [(createGrade_ok_fields hok).1]
    simp only [deriveGradeFields, hrs]
    rw [if_neg (by simpa using hne)]
    simp [sanitizeRubricScores_eq]
  · intro user g0 updates now rs g hrs hts hok
    rw [(updateGrade_ok_fields hok).1]
    simp [hrs, hts, sanitizeRubricScores_eq]

/-- C1 witness: the creation clause applied to the example fixtures; the
stored total of the grade created from the example rubric is 86. -/
theorem C1_witness :
    gradeDataEx.rubricScores = some exampleRubric
    ∧ exampleRubric ≠ []
    ∧ createGrade uT gradeDataEx (some subEx) (some aEx) ⟨1, 0⟩ "g1" = .ok gradeEx
    ∧ gradeEx.totalScore = some 86 := by
  have hne : exampleRubric ≠ [] := by simp [exampleRubric]
  refine ⟨rfl, hne, createGrade_fixture_eval, ?_⟩
  have h := C1_rubric_total_weighted_average.2.2.2.1 uT gradeDataEx subEx aEx ⟨1, 0⟩ "g1"
    exampleRubric gradeEx rfl hne createGrade_fixture_eval
  rw [h, exampleRubric_total]
  norm_num

/-- Evaluation of assignment creation on the example fixtures. -/
theorem createAssignment_fixture_eval :
    createAssignment uT assignDataEx ⟨0, 0⟩ "a9" = .ok assignEx := by
  norm_num +decide [createAssignment, uT, assignDataEx, assignEx, truthyStr,
    calculatePriorityFromDeadline, jsCeil, JsDate.getTime, JsDate.startOfDay,
    JsDate.endOfDay, msPerDay]

/-- C7: the derived letter grade is A iff the score is at least 90, B iff in
[80,90), C iff in [70,80), D iff in [60,70), F otherwise; at grade creation a
missing letter grade is derived from the rubric total when a nonempty rubric
is supplied, and from the numeric score when only a numeric score is
supplied. -/
theorem C7_letter_grade_thresholds :
    (∀ s : ℚ,
      (calculateLetterGrade s = .A ↔ 90 ≤ s)
      ∧ (calculateLetterGrade s = .B ↔ 80 ≤ s ∧ s < 90)
      ∧ (calculateLetterGrade s = .C ↔ 70 ≤ s ∧ s < 80)
      ∧ (calculateLetterGrade s = .D ↔ 60 ≤ s ∧ s < 70)
      ∧ (calculateLetterGrade s = .F ↔ s < 60))
    ∧ (∀ (user : AuthUser) (data : CreateGradeDTO) (sub : Submission) (a : Assignment)
        (now : JsDate) (newId : String) (rs : List RubricScore) (g : Grade),
        data.rubricScores = some rs → rs ≠ [] → data.letterGrade = none →
        createGrade user data (some sub) (some a) now newId = .ok g →
        g.letterGrade = some (calculateLetterGrade ((calculateTotalFromRubric rs : ℤ) : ℚ)))
    ∧ (∀ (user : AuthUser) (data : CreateGradeDTO) (sub : Submission) (a : Assignment)
        (now : JsDate) (newId : String) (n : ℚ) (g : Grade),
        (data.rubricScores = none ∨ data.rubricScores = some []) →
        data.numericScore = some n → data.letterGrade = none →
        createGrade user data (some sub) (some a) now newId = .ok g →
        g.letterGrade = some (calculateLetterGrade n)) := by
  refine ⟨?_, ?_, ?_⟩
  · intro s
    unfold calculateLetterGrade
    split_ifs with h1 h2 h3 h4 <;>
      refine ⟨?_, ?_, ?_, ?_, ?_⟩ <;> simp <;>
      first
        | linarith
        | (constructor <;> linarith)
        | (intro h5; linarith)
  · intro user data sub a now newId rs g hrs hne hlg hok
    rw [(createGrade_ok_fields hok).2.1]
    simp only [deriveGradeFields, hrs]
    rw [if_neg (by simpa using hne)]
    simp [hlg, sanitizeRubricScores_eq]
  · intro user data sub a now newId n g hrs hnum hlg hok
    rw [(createGrade_ok_fields hok).2.1]
    rcases hrs with h | h <;>
      simp [deriveGradeFields, h, letterViaNumeric, hnum, hlg]

/-- C7 witness: the creation clause applied to the example fixtures; the
letter derived from the rubric total 86 is B. -/
theorem C7_witness :
    gradeDataEx.rubricScores = some exampleRubric
    ∧ exampleRubric ≠ []
    ∧ gradeDataEx.letterGrade = none
    ∧ createGrade uT gradeDataEx (some subEx) (some aEx) ⟨1, 0⟩ "g1" = .ok gradeEx
    ∧ gradeEx.letterGrade = some .B := by
  have hne : exampleRubric ≠ [] := by simp [exampleRubric]
  refine ⟨rfl, hne, rfl, createGrade_fixture_eval, ?_⟩
  have h := C7_letter_grade_thresholds.2.1 uT gradeDataEx subEx aEx ⟨1, 0⟩ "g1"
    exampleRubric gradeEx rfl hne rfl createGrade_fixture_eval
  rw [h, exampleRubric_total]
  norm_num [calculateLetterGrade]

/-- C5 counterexample: a due date exactly 2 calendar days out (claimed to be
`high`, since the claim reads “high iff at most 2 days out” with a same-day
deadline counting as day 0) actually yields `medium`. -/
theorem C5_counterexample :
    calculatePriorityFromDeadline ⟨2, 0⟩ ⟨0, 0⟩ = .medium ∧
    calculatePriorityFromDeadline ⟨2, 0⟩ ⟨0, 0⟩ ≠ .high := by
  have h : calculatePriorityFromDeadline ⟨2, 0⟩ ⟨0, 0⟩ = .medium := by
    norm_num [calculatePriorityFromDeadline, jsCeil, JsDate.getTime, JsDate.startOfDay,
      JsDate.endOfDay, msPerDay]
  exact ⟨h, by rw [h]; simp⟩

/-- C5 (amended): the derived priority is `high` iff the due date is at most
1 calendar day out (today or tomorrow, past dates included), `medium` iff 2
to 4 days out, and `low` iff 5 or more days out, the day difference being
taken between end-of-day of the due date and start-of-day of now; the
priority is always computed by the server (a caller-supplied priority changes
nothing), and updating an assignment's due date recomputes it. -/
theorem C5_priority_derivation :
    (∀ due now : JsDate,
      (calculatePriorityFromDeadline due now = .high ↔ due.day - now.day ≤ 1)
      ∧ (calculatePriorityFromDeadline due now = .medium ↔
          2 ≤ due.day - now.day ∧ due.day - now.day ≤ 4)
      ∧ (calculatePriorityFromDeadline due now = .low ↔ 5 ≤ due.day - now.day))
    ∧ (∀ (user : AuthUser) (data : CreateAssignmentDTO) (now : JsDate) (newId : String)
        (due : JsDate) (a : Assignment),
        data.dueDate = some due →
        createAssignment user data now newId = .ok a →
        a.priority = calculatePriorityFromDeadline due now)
    ∧ (∀ (a0 : Assignment) (user : AuthUser) (updates : UpdateAssignmentDTO)
        (now : JsDate) (due : JsDate) (a : Assignment),
        updates.dueDate = some due →
        updateAssignment (some a0) user updates now = .ok a →
        a.priority = calculatePriorityFromDeadline due now ∧ a.dueDate = due)
    ∧ (∀ (user : AuthUser) (data : CreateAssignmentDTO) (now : JsDate) (newId : String)
        (p : Option Priority),
        createAssignment user { data with priority := p } now newId =
          createAssignment user data now newId)
    ∧ (∀ (a0 : Option Assignment) (user : AuthUser) (updates : UpdateAssignmentDTO)
        (now : JsDate) (p : Option Priority),
        updateAssignment a0 user { updates with priority := p } now =
          updateAssignment a0 user updates now) := by
  refine ⟨?_, ?_, ?_, ?_, ?_⟩
  · intro due now
    rw [calculatePriorityFromDeadline_closed]
    refine ⟨?_, ?_, ?_⟩ <;> split_ifs with h1 h2 <;> simp <;> omega
  · intro user data now newId due a hdue hok
    cases hdiff : data.difficulty with
    | none =>
      simp only [createAssignment, hdue, hdiff] at hok
      exact Except.noConfusion hok
    | some diff =>
      simp only [createAssignment, hdue, hdiff] at hok
      split_ifs at hok <;>
        first
          | exact Except.noConfusion hok
          | exact (congrArg Assignment.priority (Except.ok.inj hok)).symm
  · intro a0 user updates now due a hdue hok
    simp only [updateAssignment] at hok
    split_ifs at hok <;>
      first
        | exact Except.noConfusion hok
        | (rw [← Except.ok.inj hok]; simp [hdue])
  · intro user data now newId p
    rfl
  · intro a0 user updates now p
    rfl

/-- C5 witness: creation at a due date 3 days out stores the server-derived
priority `medium`, ignoring the caller-supplied `low`. -/
theorem C5_witness :
    assignDataEx.dueDate = some ⟨3, 0⟩
    ∧ createAssignment uT assignDataEx ⟨0, 0⟩ "a9" = .ok assignEx
    ∧ assignEx.priority = calculatePriorityFromDeadline ⟨3, 0⟩ ⟨0, 0⟩
    ∧ assignEx.priority = .medium := by
  exact ⟨rfl, createAssignment_fixture_eval,
    C5_priority_derivation.2.1 uT assignDataEx ⟨0, 0⟩ "a9" ⟨3, 0⟩ assignEx rfl
      createAssignment_fixture_eval,
    rfl⟩

/-- C10: an assignment created without status, late-submission policy or
attempt limit gets status `published`, `allowLateSubmission = true` and
`maxAttempts = 3`. -/
theorem C10_assignment_defaults :
    ∀ (user : AuthUser) (data : CreateAssignmentDTO) (now : JsDate) (newId : String)
      (a : Assignment),
      data.status = none → data.allowLateSubmission = none → data.maxAttempts = none →
      createAssignment user data now newId = .ok a →
      a.status = .published ∧ a.allowLateSubmission = true ∧ a.maxAttempts = 3 := by
  intro user data now newId a hst hals hmax hok
  cases hdue : data.dueDate with
  | none =>
    simp only [createAssignment, hdue] at hok
    exact Except.noConfusion hok
  | some due =>
    cases hdiff : data.difficulty with
    | none =>
      simp only [createAssignment, hdue, hdiff] at hok
      exact Except.noConfusion hok
    | some diff =>
      simp only [createAssignment, hdue, hdiff] at hok
      split_ifs at hok <;>
        first
          | exact Except.noConfusion hok
          | (rw [← Except.ok.inj hok]; simp [hst, hals, hmax])

/-- C10 witness: the defaults clause applied to the example fixtures. -/
theorem C10_witness :
    assignDataEx.status = none
    ∧ assignDataEx.allowLateSubmission = none
    ∧ assignDataEx.maxAttempts = none
    ∧ createAssignment uT assignDataEx ⟨0, 0⟩ "a9" = .ok assignEx
    ∧ (assignEx.status = .published ∧ assignEx.allowLateSubmission = true
        ∧ assignEx.maxAttempts = 3) :=
  ⟨rfl, rfl, rfl, createAssignment_fixture_eval,
    C10_assignment_defaults uT assignDataEx ⟨0, 0⟩ "a9" assignEx rfl rfl rfl
      createAssignment_fixture_eval⟩

/-- C9: pagination parameters are clamped to page at least 1 and limit in
[1,100] with default limit 20 when the limit is absent or invalid; the
response holds the slice of the result array starting at index
`(page-1)*limit` of length at most `limit`, with
`totalPages = ceil(total/limit)`; with 25 items and limit 10, page 1 holds 10
items and `totalPages = 3`, and page 3 holds 5 items. -/
theorem C9_pagination :
    (∀ pageQ limitQ : Option ℤ,
      1 ≤ (getPaginationParams pageQ limitQ).page
      ∧ 1 ≤ (getPaginationParams pageQ limitQ).limit
      ∧ (getPaginationParams pageQ limitQ).limit ≤ 100
      ∧ (limitQ = none → (getPaginationParams pageQ limitQ).limit = 20)
      ∧ (getPaginationParams pageQ limitQ).offset
          = ((getPaginationParams pageQ limitQ).page - 1) * (getPaginationParams pageQ limitQ).limit)
    ∧ (∀ (α : Type) (items : List α) (page limit : ℤ), 1 ≤ page → 1 ≤ limit →
        (paginateItems items page limit).data
            = jsSlice items ((page - 1) * limit) (page * limit)
          ∧ (paginateItems items page limit).data.length ≤ limit.toNat
          ∧ (paginateItems items page limit).totalPages
              = ⌈(items.length : ℚ) / (limit : ℚ)⌉)
    ∧ ((paginateItems (List.range 25) 1 10).data.length = 10
        ∧ (paginateItems (List.range 25) 1 10).totalPages = 3
        ∧ (paginateItems (List.range 25) 3 10).data.length = 5
        ∧ (paginateItems (List.range 25) 3 10).totalPages = 3) := by
  refine ⟨?_, ?_, ?_⟩
  · intro pageQ limitQ
    refine ⟨le_max_left _ _, le_min (by norm_num) (le_max_left _ _), min_le_left _ _, ?_, rfl⟩
    intro h
    subst h
    norm_num [getPaginationParams]
  · intro α items page limit hp hl
    refine ⟨rfl, ?_, ?_⟩
    · have hw := page_window page limit hp hl
      simp only [paginateItems, buildPaginatedResponse, jsSlice]
      exact hw ▸ List.length_take_le _ _
    · simp only [paginateItems, buildPaginatedResponse, jsCeil_eq_ceil]
      norm_cast
  · refine ⟨?_, ?_, ?_, ?_⟩ <;>
      norm_num [paginateItems, buildPaginatedResponse, jsSlice, jsCeil,
        List.length_take, List.length_drop, List.length_range] <;>
      omega

/-- C9 witness: the slice clause applied at page 3, limit 10 over 25 items. -/
theorem C9_witness :
    (1:ℤ) ≤ 3 ∧ (1:ℤ) ≤ 10
    ∧ (paginateItems (List.range 25) 3 10).data.length ≤ (10:ℤ).toNat
    ∧ (paginateItems (List.range 25) 3 10).totalPages
        = ⌈(((List.range 25).length : ℚ)) / ((10:ℤ) : ℚ)⌉ := by
  have h := C9_pagination.2.1 ℕ (List.range 25) 3 10 (by norm_num) (by norm_num)
  exact ⟨by norm_num, by norm_num, h.2.1, h.2.2⟩

/-- C4 (amended): publishing a grade as its owning teacher fails with an HTTP
400 response ("Grade is already published") when the status is already
`finalized` — not with a 409 Conflict — and performs no write; otherwise it
sets the status to `finalized` and stamps the publish time. -/
theorem C4_publish_grade :
    (∀ (g : Grade) (user : AuthUser) (now : JsDate),
      g.teacherId = user.uid →
      ((g.status = .finalized →
          publishGrade (some g) user now = .error ⟨400, "Grade is already published"⟩)
       ∧ (g.status ≠ .finalized →
          publishGrade (some g) user now =
            .ok { g with status := .finalized, publishedAt := some now })))
    ∧ (∀ (grades : List Grade) (id : String) (user : AuthUser) (now : JsDate) (e : HttpError),
        (publishGradeHandler grades id user now).1 = .error e →
        (publishGradeHandler grades id user now).2 = grades) := by
  constructor
  · intro g user now hown
    constructor
    · intro hst
      simp [publishGrade, hown, hst]
    · intro hst
      simp [publishGrade, hown, hst]
  · intro grades id user now e h
    unfold publishGradeHandler at h ⊢
    cases hres : publishGrade (lookupGrade grades id) user now with
    | error e2 => simp only [hres]
    | ok g2 =>
      rw [hres] at h
      simp at h
/-- C4 counterexample: publishing an already-finalized grade fails with HTTP
status 400, not the 409 that a `Conflict` in this API denotes (grading.ts
uses 409 for the duplicate-grade conflict but 400 here). -/
theorem C4_counterexample :
    gradeFinalEx.status = .finalized
    ∧ gradeFinalEx.teacherId = uT.uid
    ∧ publishGrade (some gradeFinalEx) uT ⟨2, 0⟩ =
        .error ⟨400, "Grade is already published"⟩
    ∧ (400 : ℕ) ≠ 409 := by
  refine ⟨rfl, rfl, ?_, by decide⟩
  norm_num +decide [publishGrade, gradeFinalEx, uT]

/-- C4 witness: publishing a draft grade succeeds and stamps the publish
time. -/
theorem C4_witness :
    gradeDraftEx.teacherId = uT.uid
    ∧ gradeDraftEx.status ≠ .finalized
    ∧ publishGrade (some gradeDraftEx) uT ⟨2, 0⟩ =
        .ok { gradeDraftEx with status := .finalized, publishedAt := some ⟨2, 0⟩ } :=
  ⟨rfl, by decide, (C4_publish_grade.1 gradeDraftEx uT ⟨2, 0⟩ rfl).2 (by decide)⟩

/-- C8 (amended): responding to a review request as its teacher succeeds only
while the request is `pending`, setting the supplied `accepted`/`declined`
status and stamping a response time; responding to a non-pending request
fails with an HTTP 400 response ("Review request has already been responded
to") — not with a 409 Conflict — and performs no write, so `accepted` and
`declined` are terminal. -/
theorem C8_review_respond :
    (∀ (r : GradeReviewRequest) (user : AuthUser) (d : RespondToReviewRequestDTO)
      (now : JsDate) (s : ReviewStatus),
      r.teacherId = user.uid →
      d.status = some s → s ≠ .pending →
      ((r.status = .pending →
          respondToReviewRequest (some r) user d now =
            .ok { r with
                  status := s
                  respondedAt := some now
                  responseMessage := if truthyStr d.message then d.message else none })
       ∧ (r.status ≠ .pending →
          respondToReviewRequest (some r) user d now =
            .error ⟨400, "Review request has already been responded to"⟩)))
    ∧ (∀ (requests : List GradeReviewRequest) (id : String) (user : AuthUser)
        (d : RespondToReviewRequestDTO) (now : JsDate) (e : HttpError),
        (respondHandler requests id user d now).1 = .error e →
        (respondHandler requests id user d now).2 = requests) := by
  constructor
  · intro r user d now s hown hds hsp
    constructor
    · intro hst
      simp [respondToReviewRequest, hds, hsp, hown, hst]
    · intro hst
      simp [respondToReviewRequest, hds, hsp, hown, hst]
  · intro requests id user d now e h
    unfold respondHandler at h ⊢
    cases hres : respondToReviewRequest (lookupReviewRequest requests id) user d now with
    | error e2 => simp only [hres]
    | ok r2 =>
      rw [hres] at h
      simp at h

/-- C8 counterexample: responding to an already-accepted request fails with
HTTP status 400, not the 409 that a `Conflict` in this API denotes. -/
theorem C8_counterexample :
    rrAcceptedEx.status = .accepted
    ∧ rrAcceptedEx.teacherId = uT.uid
    ∧ respondToReviewRequest (some rrAcceptedEx) uT ⟨some .declined, none⟩ ⟨4, 0⟩ =
        .error ⟨400, "Review request has already been responded to"⟩
    ∧ (400 : ℕ) ≠ 409 := by
  refine ⟨rfl, rfl, ?_, by decide⟩
  norm_num +decide [respondToReviewRequest, rrAcceptedEx, uT]

/-- C8 witness: accepting a pending review request succeeds and stamps the
response time. -/
theorem C8_witness :
    rrPendingEx.teacherId = uT.uid
    ∧ (some ReviewStatus.accepted : Option ReviewStatus) = some .accepted
    ∧ ReviewStatus.accepted ≠ .pending
    ∧ rrPendingEx.status = .pending
    ∧ respondToReviewRequest (some rrPendingEx) uT ⟨some .accepted, none⟩ ⟨4, 0⟩ =
        .ok { rrPendingEx with
              status := .accepted
              respondedAt := some ⟨4, 0⟩
              responseMessage := if truthyStr none then none else none } :=
  ⟨rfl, rfl, by decide, rfl,
    (C8_review_respond.1 rrPendingEx uT ⟨some .accepted, none⟩ ⟨4, 0⟩ .accepted rfl rfl
      (by decide)).1 rfl⟩

/-- C2 (amended): for a submission call with content supplied, integrity
confirmed, on an existing published assignment whose due date has passed
(strictly after end-of-day): if `allowLateSubmission = false` the call fails
with a 400 ValidationError and no submission document is created or modified;
if `allowLateSubmission = true` it succeeds with status `late` provided the
attempt limit is not already exhausted; an on-time call under the same
proviso yields status `submitted`. -/
theorem C2_late_submission_policy :
    (∀ (a : Assignment) (existing : Option Submission) (user : AuthUser)
      (data : CreateSubmissionDTO) (now : JsDate) (newId : String),
      data.assignmentId.isEmpty = false →
      (truthyStr data.textContent = true ∨ truthyStr data.fileUrl = true) →
      data.integrityConfirmed = true →
      a.status = .published →
      ((isOverdue a.dueDate now = true → a.allowLateSubmission = false →
          postSubmission (some a) existing user data now newId =
            .error ⟨400, "Late submissions are not allowed for this assignment"⟩)
       ∧ (isOverdue a.dueDate now = true → a.allowLateSubmission = true →
          (∀ ex, existing = some ex → ex.currentAttempt < a.maxAttempts) →
          ∃ s, postSubmission (some a) existing user data now newId = .ok s ∧
            s.status = .late)
       ∧ (isOverdue a.dueDate now = false →
          (∀ ex, existing = some ex → ex.currentAttempt < a.maxAttempts) →
          ∃ s, postSubmission (some a) existing user data now newId = .ok s ∧
            s.status = .submitted)))
    ∧ (∀ (assignments : List Assignment) (subs : List Submission) (user : AuthUser)
        (data : CreateSubmissionDTO) (now : JsDate) (newId : String) (e : HttpError),
        (submitHandler assignments subs user data now newId).1 = .error e →
        (submitHandler assignments subs user data now newId).2 = subs) := by
  constructor
  · intro a existing user data now newId hid hcontent hint hpub
    have hid' : ¬(data.assignmentId.isEmpty = true) := by simp [hid]
    have hcontent' : ¬(¬truthyStr data.textContent = true ∧ ¬truthyStr data.fileUrl = true) := by
      rcases hcontent with h | h <;> simp [h]
    have hint' : ¬(¬data.integrityConfirmed = true) := by simp [hint]
    have hpub' : ¬(a.status ≠ .published) := by simp [hpub]
    refine ⟨?_, ?_, ?_⟩
    · intro hov hlate
      simp only [postSubmission]
      rw [if_neg hid', if_neg hcontent', if_neg hint', if_neg hpub',
        if_pos (show isOverdue a.dueDate now = true ∧ ¬(a.allowLateSubmission = true) from
          ⟨hov, by simp [hlate]⟩)]
    · intro hov hlate hatt
      have hnl' : ¬(isOverdue a.dueDate now = true ∧ ¬(a.allowLateSubmission = true)) := by
        simp [hov, hlate]
      cases existing with
      | none =>
        simp only [postSubmission]
        rw [if_neg hid', if_neg hcontent', if_neg hint', if_neg hpub', if_neg hnl']
        exact ⟨_, rfl, by simp [hov]⟩
      | some ex =>
        simp only [postSubmission]
        rw [if_neg hid', if_neg hcontent', if_neg hint', if_neg hpub', if_neg hnl',
          if_neg (not_le.mpr (hatt ex rfl))]
        exact ⟨_, rfl, by simp [hov]⟩
    · intro hov hatt
      have hnl' : ¬(isOverdue a.dueDate now = true ∧ ¬(a.allowLateSubmission = true)) := by
        simp [hov]
      cases existing with
      | none =>
        simp only [postSubmission]
        rw [if_neg hid', if_neg hcontent', if_neg hint', if_neg hpub', if_neg hnl']
        exact ⟨_, rfl, by simp [hov]⟩
      | some ex =>
        simp only [postSubmission]
        rw [if_neg hid', if_neg hcontent', if_neg hint', if_neg hpub', if_neg hnl',
          if_neg (not_le.mpr (hatt ex rfl))]
        exact ⟨_, rfl, by simp [hov]⟩
  · intro assignments subs user data now newId e h
    simp only [submitHandler] at h ⊢
    cases hres : postSubmission (lookupAssignment assignments data.assignmentId)
        (findSubmissionByKey subs data.assignmentId user.uid) user data now newId with
    | error e2 => simp only [hres]
    | ok s2 =>
      rw [hres] at h
      simp at h

/-- C2 counterexample: a post-due-date call on a published assignment with
`allowLateSubmission = true` does not always succeed — with the single
allowed attempt already used it fails with the max-attempts 400 error. -/
theorem C2_counterexample :
    aLateEx.status = .published
    ∧ aLateEx.allowLateSubmission = true
    ∧ isOverdue aLateEx.dueDate ⟨5, 0⟩ = true
    ∧ truthyStr subDataEx.textContent = true
    ∧ subDataEx.integrityConfirmed = true
    ∧ postSubmission (some aLateEx) (some exFullEx) uS subDataEx ⟨5, 0⟩ "n1" =
        .error ⟨400, "Maximum attempts (1) reached"⟩ := by
  refine ⟨rfl, rfl, by decide, by decide, rfl, ?_⟩
  norm_num +decide [postSubmission, aLateEx, exFullEx, uS, subDataEx, truthyStr, isOverdue,
    JsDate.getTime, JsDate.endOfDay, msPerDay, contentOpt]

/-- C2 witness: a first submission after the due date on an assignment that
allows late submission succeeds with status `late`. -/
theorem C2_witness :
    subDataEx.assignmentId.isEmpty = false
    ∧ truthyStr subDataEx.textContent = true
    ∧ subDataEx.integrityConfirmed = true
    ∧ aLateEx.status = .published
    ∧ isOverdue aLateEx.dueDate ⟨5, 0⟩ = true
    ∧ aLateEx.allowLateSubmission = true
    ∧ ∃ s, postSubmission (some aLateEx) none uS subDataEx ⟨5, 0⟩ "n1" = .ok s
        ∧ s.status = .late := by
  refine ⟨by decide, by decide, rfl, rfl, by decide, rfl, ?_⟩
  exact (C2_late_submission_policy.1 aLateEx none uS subDataEx ⟨5, 0⟩ "n1" (by decide)
    (Or.inl (by decide)) rfl rfl).2.1 (by decide) rfl (fun ex hex => by cases hex)

/-- C3 (amended): the submission operation keyed on (assignmentId, studentId)
creates attempt 1 with a one-element history when no submission exists, fails
with the AttemptsExhausted error when the existing submission's
`currentAttempt` has reached `maxAttempts` (writing nothing), and otherwise
appends attempt `currentAttempt + 1` and overwrites the current content
fields; `currentAttempt` never exceeds `maxAttempts` provided
`maxAttempts ≥ 1` (with `maxAttempts = 0` a first submission is still created
with `currentAttempt = 1`). -/
theorem C3_submission_attempts :
    (∀ (a : Assignment) (user : AuthUser) (data : CreateSubmissionDTO)
      (now : JsDate) (newId : String),
      data.assignmentId.isEmpty = false →
      (truthyStr data.textContent = true ∨ truthyStr data.fileUrl = true) →
      data.integrityConfirmed = true →
      a.status = .published →
      ¬(isOverdue a.dueDate now = true ∧ a.allowLateSubmission = false) →
      ((∃ s, postSubmission (some a) none user data now newId = .ok s
          ∧ s.currentAttempt = 1
          ∧ s.attemptHistory = [mkAttempt data now 1])
       ∧ (∀ ex : Submission, ex.currentAttempt ≥ a.maxAttempts →
           postSubmission (some a) (some ex) user data now newId =
             .error ⟨400, "Maximum attempts (" ++ toString a.maxAttempts ++ ") reached"⟩)
       ∧ (∀ ex : Submission, ex.currentAttempt < a.maxAttempts →
           ∃ s, postSubmission (some a) (some ex) user data now newId = .ok s
             ∧ s.currentAttempt = ex.currentAttempt + 1
             ∧ s.attemptHistory = ex.attemptHistory ++ [mkAttempt data now (ex.currentAttempt + 1)]
             ∧ s.textContent =
                 (if truthyStr data.textContent then data.textContent else ex.textContent)
             ∧ s.fileUrl =
                 (if truthyStr data.fileUrl then data.fileUrl else ex.fileUrl))))
    ∧ (∀ (a : Assignment) (existing : Option Submission) (user : AuthUser)
        (data : CreateSubmissionDTO) (now : JsDate) (newId : String) (s : Submission),
        1 ≤ a.maxAttempts →
        postSubmission (some a) existing user data now newId = .ok s →
        s.currentAttempt ≤ a.maxAttempts)
    ∧ (∀ (assignments : List Assignment) (subs : List Submission) (user : AuthUser)
        (data : CreateSubmissionDTO) (now : JsDate) (newId : String) (e : HttpError),
        (submitHandler assignments subs user data now newId).1 = .error e →
        (submitHandler assignments subs user data now newId).2 = subs) := by
  refine ⟨?_, ?_, ?_⟩
  · intro a user data now newId hid hcontent hint hpub hnl
    have hid' : ¬(data.assignmentId.isEmpty = true) := by simp [hid]
    have hcontent' : ¬(¬truthyStr data.textContent = true ∧ ¬truthyStr data.fileUrl = true) := by
      rcases hcontent with h | h <;> simp [h]
    have hint' : ¬(¬data.integrityConfirmed = true) := by simp [hint]
    have hpub' : ¬(a.status ≠ .published) := by simp [hpub]
    have hnl' : ¬(isOverdue a.dueDate now = true ∧ ¬(a.allowLateSubmission = true)) := by
      simpa using hnl
    refine ⟨?_, ?_, ?_⟩
    · simp only [postSubmission]
      rw [if_neg hid', if_neg hcontent', if_neg hint', if_neg hpub', if_neg hnl']
      exact ⟨_, rfl, rfl, rfl⟩
    · intro ex hge
      simp only [postSubmission]
      rw [if_neg hid', if_neg hcontent', if_neg hint', if_neg hpub', if_neg hnl',
        if_pos hge]
    · intro ex hlt
      simp only [postSubmission]
      rw [if_neg hid', if_neg hcontent', if_neg hint', if_neg hpub', if_neg hnl',
        if_neg (not_le.mpr hlt)]
      exact ⟨_, rfl, rfl, rfl, rfl, rfl⟩
  · intro a existing user data now newId s h1 hok
    cases existing with
    | none =>
      simp only [postSubmission] at hok
      split_ifs at hok <;>
        first
          | exact Except.noConfusion hok
          | (rw [← Except.ok.inj hok]; exact h1)
    | some ex =>
      simp only [postSubmission] at hok
      split_ifs at hok <;>
        first
          | exact Except.noConfusion hok
          | (rw [← Except.ok.inj hok]
             change ex.currentAttempt + 1 ≤ a.maxAttempts
             omega)
  · intro assignments subs user data now newId e h
    simp only [submitHandler] at h ⊢
    cases hres : postSubmission (lookupAssignment assignments data.assignmentId)
        (findSubmissionByKey subs data.assignmentId user.uid) user data now newId with
    | error e2 => simp only [hres]
    | ok s2 =>
      rw [hres] at h
      simp at h

/-- C3 counterexample: on an assignment with `maxAttempts = 0` the creation
path still produces `currentAttempt = 1`, so `currentAttempt` exceeds
`maxAttempts`, refuting the unconditional invariant of the claim. -/
theorem C3_counterexample :
    aZeroEx.maxAttempts = 0
    ∧ aZeroEx.status = .published
    ∧ (postSubmission (some aZeroEx) none uS subDataEx ⟨0, 0⟩ "n1").toOption.map
        Submission.currentAttempt = some 1
    ∧ ¬((1 : ℤ) ≤ aZeroEx.maxAttempts) := by
  refine ⟨rfl, rfl, ?_, by decide⟩
  norm_num +decide [postSubmission, aZeroEx, uS, subDataEx, truthyStr, isOverdue,
    JsDate.getTime, JsDate.endOfDay, msPerDay, contentOpt]

/-- C3 witness: a first on-time submission creates attempt 1 with a
one-element history. -/
theorem C3_witness :
    subDataEx.assignmentId.isEmpty = false
    ∧ truthyStr subDataEx.textContent = true
    ∧ subDataEx.integrityConfirmed = true
    ∧ aEx.status = .published
    ∧ ¬(isOverdue aEx.dueDate ⟨0, 0⟩ = true ∧ aEx.allowLateSubmission = false)
    ∧ ∃ s, postSubmission (some aEx) none uS subDataEx ⟨0, 0⟩ "n1" = .ok s
        ∧ s.currentAttempt = 1
        ∧ s.attemptHistory = [mkAttempt subDataEx ⟨0, 0⟩ 1] := by
  refine ⟨by decide, by decide, rfl, rfl, by decide, ?_⟩
  exact (C3_submission_attempts.1 aEx uS subDataEx ⟨0, 0⟩ "n1" (by decide)
    (Or.inl (by decide)) rfl rfl (by decide)).1

/-- C6: a grade fetch by a student returns the grade iff its status is
`finalized` and the underlying submission belongs to that student, and is
denied with a 403 Forbidden otherwise; every grade returned by the student
grade-listing is a finalized grade of one of that student's own
submissions. -/
theorem C6_student_grade_visibility :
    (∀ (grades : List Grade) (subs : List Submission) (id : String) (user : AuthUser)
      (g : Grade) (sub : Submission),
      user.role = .student →
      lookupGrade grades id = some g →
      lookupSubmission subs g.submissionId = some sub →
      ((getGradeById grades subs id user = .ok g ↔
          g.status = .finalized ∧ sub.studentId = user.uid)
       ∧ (¬(g.status = .finalized ∧ sub.studentId = user.uid) →
          getGradeById grades subs id user = .error ⟨403, "Access denied"⟩)))
    ∧ (∀ (subs : List Submission) (grades : List Grade) (user : AuthUser)
        (pageQ limitQ : Option ℤ) (g : Grade),
        g ∈ (getGradesStudentPage subs grades user pageQ limitQ).data →
        g ∈ grades ∧ g.status = .finalized ∧
          ∃ s ∈ subs, s.id = g.submissionId ∧ s.studentId = user.uid) := by
  constructor
  · intro grades subs id user g sub hrole hlg hls
    by_cases hc : g.status = .finalized ∧ sub.studentId = user.uid
    · have hcond : ¬(user.role = .student ∧ (sub.studentId ≠ user.uid ∨ g.status ≠ .finalized)) := by
        tauto
      refine ⟨?_, fun hn => absurd hc hn⟩
      simp only [getGradeById, hlg, hls]
      rw [if_neg hcond]
      exact ⟨fun _ => hc, fun _ => rfl⟩
    · have hcond : user.role = .student ∧ (sub.studentId ≠ user.uid ∨ g.status ≠ .finalized) := by
        refine ⟨hrole, ?_⟩
        tauto
      constructor
      · simp only [getGradeById, hlg, hls]
        rw [if_pos hcond]
        exact ⟨fun h => Except.noConfusion h, fun h => absurd h hc⟩
      · intro _
        simp only [getGradeById, hlg, hls]
        rw [if_pos hcond]
  · intro subs grades user pageQ limitQ g hg
    simp only [getGradesStudentPage, paginateItems, buildPaginatedResponse] at hg
    have h1 := jsSlice_subset _ _ _ hg
    rw [sortGradesByGradedAt, List.mem_mergeSort] at h1
    by_cases hemp : (studentSubmissionIds subs user.uid).isEmpty
    · rw [if_pos hemp] at h1
      cases h1
    · rw [if_neg hemp] at h1
      obtain ⟨hmem, hst, c, hc, hsid⟩ := mem_collectFinalizedGrades h1
      have hid : g.submissionId ∈ studentSubmissionIds subs user.uid :=
        mem_of_mem_chunksOf10 hc hsid
      simp only [studentSubmissionIds, List.mem_map, List.mem_filter] at hid
      obtain ⟨s, ⟨hs_mem, hs_stu⟩, hs_id⟩ := hid
      exact ⟨hmem, hst, s, hs_mem, hs_id, by simpa using hs_stu⟩

/-- C6 witness: a student fetching their own finalized grade receives it. -/
theorem C6_witness :
    uS.role = .student
    ∧ lookupGrade [gradeFinalEx] "gf" = some gradeFinalEx
    ∧ lookupSubmission [subEx] gradeFinalEx.submissionId = some subEx
    ∧ gradeFinalEx.status = .finalized
    ∧ subEx.studentId = uS.uid
    ∧ getGradeById [gradeFinalEx] [subEx] "gf" uS = .ok gradeFinalEx := by
  have hlg : lookupGrade [gradeFinalEx] "gf" = some gradeFinalEx := by decide
  have hls : lookupSubmission [subEx] gradeFinalEx.submissionId = some subEx := by decide
  refine ⟨rfl, hlg, hls, rfl, rfl, ?_⟩
  exact ((C6_student_grade_visibility.1 [gradeFinalEx] [subEx] "gf" uS gradeFinalEx subEx
    rfl hlg hls).1).mpr ⟨rfl, rfl⟩

end Edutask
